import Mathlib

/-!
Shallow embedding of the Juniper container-backup engine (`src/backup.py`)
and theorems checking its specification.

Modelled from the source:
* hostname sanitization (backup.py line 280),
* retention cleanup `cleanup_old_backups` (lines 156-172) with Python's
  negative-slice semantics for `files[:-MAX_BACKUPS]`,
* the tenacity retry decorator on `backup_router` (lines 228-237),
* the per-device task `backup_router` (lines 238-328) with its internal
  `except` arms and file-system effects,
* the job orchestration `run_backup_job` (lines 339-451).

Strings are `List Char`; the netmiko session, git and Telegram transports
are abstracted as outcome oracles, faithful to which exception classes each
call site can raise and which `except` clauses catch them.
-/

set_option autoImplicit false

set_option linter.unnecessarySeqFocus false

/-! ## Definitions -/

/-- Python exception classes relevant to `backup.py`'s `except` clauses and
the tenacity `retry_if_exception_type` filter; `otherError` stands for any
other `Exception` subclass (for example `OSError` raised by `os.remove` or a
failed `f.write`). -/
inductive PyExc where
  | netmikoTimeout
  | netmikoAuth
  | connectionError
  | timeoutError
  | otherError
  deriving DecidableEq, Repr

/-- The transient classification of the decorator at backup.py line 231:
`retry_if_exception_type((NetmikoTimeoutException, ConnectionError,
TimeoutError))`. -/
def retryOnExc : PyExc → Bool
  | PyExc.netmikoTimeout => true
  | PyExc.connectionError => true
  | PyExc.timeoutError => true
  | _ => false

/-- Tenacity retry-loop semantics for the decorator on `backup_router`
(backup.py lines 228-237): invoke the body with 1-based attempt number `n`;
a raised exception matching the retry filter is retried while `fuel`
retries remain (`stop_after_attempt`), otherwise — and once the ceiling is
reached — the exception is re-raised (`reraise=True`).  Returns the number
of body invocations together with the final outcome. -/
def tenacityRun {α : Type} (f : Nat → Except PyExc α) : Nat → Nat → Nat × Except PyExc α
  | 0, n =>
    match f n with
    | Except.ok a => (n, Except.ok a)
    | Except.error e => (n, Except.error e)
  | fuel + 1, n =>
    match f n with
    | Except.ok a => (n, Except.ok a)
    | Except.error e =>
      if retryOnExc e then tenacityRun f fuel (n + 1)
      else (n, Except.error e)

/-- Pointwise action of Python's `str.replace(a, b)` on one character. -/
def step (a b : Char) (c : Char) : Char := if c = a then b else c

/-- Python `str.replace(a, b)` for single characters. -/
def replaceChar (a b : Char) (s : List Char) : List Char :=
  s.map (step a b)

/-- Python `str.replace(a, "")` for a single character. -/
def removeChar (a : Char) (s : List Char) : List Char :=
  s.filter fun c => c ≠ a

/-- The sanitization chain at backup.py line 280, in source order: `;` is
replaced with the empty string, then each of `/ \ : * ? " < > |` is
replaced with `_`. -/
def sanitize_hostname (s : List Char) : List Char :=
  replaceChar '|' '_'
    (replaceChar '>' '_'
      (replaceChar '<' '_'
        (replaceChar '\"' '_'
          (replaceChar '?' '_'
            (replaceChar '*' '_'
              (replaceChar ':' '_'
                (replaceChar '\\' '_'
                  (replaceChar '/' '_'
                    (removeChar ';' s)))))))))

/-- The nine characters that line 280 maps to `_` (the semicolon is not
among them: it is deleted). -/
def badChar (c : Char) : Bool :=
  decide (c = '/' ∨ c = '\\' ∨ c = ':' ∨ c = '*' ∨ c = '?' ∨ c = '\"' ∨ c = '<' ∨ c = '>' ∨ c = '|')

/-- Pointwise action of the nine underscore replacements. -/
def underscoreBad (c : Char) : Char :=
  if badChar c then '_' else c

/-- Sanitization as the spec's §6 words it: every character of the set
`; / \ : * ? " < > |` — the semicolon included — is replaced with `_`.
Stated only to compare the spec's wording with `sanitize_hostname`. -/
def sanitizeSpec (s : List Char) : List Char :=
  s.map fun c => if c = ';' then '_' else underscoreBad c

/-- A snapshot file as `cleanup_old_backups` sees it: its path and its
modification time (`os.path.getmtime`); for a snapshot written by
`backup_router` the mtime is the capture time. -/
structure SnapFile where
  name : List Char
  mtime : Nat
  deriving DecidableEq, Repr

/-- The sort key of backup.py line 164: ascending modification time. -/
def mtimeRel (a b : SnapFile) : Prop := a.mtime ≤ b.mtime

instance : DecidableRel mtimeRel := fun a b => Nat.decLe a.mtime b.mtime

instance : IsTotal SnapFile mtimeRel := ⟨fun a b => Nat.le_total a.mtime b.mtime⟩

instance : IsTrans SnapFile mtimeRel := ⟨fun _ _ _ => Nat.le_trans⟩

/-- `files.sort(key=os.path.getmtime)` at line 164.  Python's sort is
stable; a stable sort's output is uniquely determined by the key order, so
the stable `insertionSort` with `≤` models it exactly. -/
def sortByMtime (files : List SnapFile) : List SnapFile :=
  List.insertionSort mtimeRel files

/-- Python slice `xs[:j]` for a possibly negative bound `j` (used as
`files[:-MAX_BACKUPS]` at line 167): a negative bound counts from the end,
clamped at zero; a non-negative bound takes that many elements.  Note that
`-0 = 0`, so `xs[:-0]` is `xs[:0] = []`. -/
def pySliceTo {α : Type} (xs : List α) (j : Int) : List α :=
  if j < 0 then xs.take (xs.length - (-j).toNat) else xs.take j.toNat

/-- The `for f in files_to_delete: os.remove(f)` loop of lines 168-170.
`removeOk f = false` means `os.remove(f)` raises; the exception aborts the
loop (later files stay on disk) and is returned alongside the files that
were removed before it. -/
def cleanupDeleteLoop (removeOk : SnapFile → Bool) : List SnapFile → List SnapFile × Option PyExc
  | [] => ([], none)
  | f :: rest =>
    if removeOk f then
      let r := cleanupDeleteLoop removeOk rest
      (f :: r.1, r.2)
    else ([], some PyExc.otherError)

/-- Observable outcome of one `cleanup_old_backups` call: the files it
removed, the matching files still on disk afterwards, whether the outer
`except` logged an error, and whether an exception escaped to the caller
(it never does: the whole body is wrapped in `try/except Exception`). -/
structure CleanupTrace where
  deleted : List SnapFile
  remaining : List SnapFile
  errorLogged : Bool
  raised : Bool
  deriving DecidableEq, Repr

/-- `cleanup_old_backups` (lines 156-172) over the glob result `files` for
the hostname's pattern: sort by mtime ascending, and when the count exceeds
`maxBackups` delete `files[:-MAX_BACKUPS]` in order.  A deletion failure
propagates out of the loop to the outer `except Exception`, which logs it
and returns normally, leaving the remaining deletions undone. -/
def cleanup_old_backups (maxBackups : Nat) (removeOk : SnapFile → Bool)
    (files : List SnapFile) : CleanupTrace :=
  if (sortByMtime files).length > maxBackups then
    { deleted :=
        (cleanupDeleteLoop removeOk (pySliceTo (sortByMtime files) (-(maxBackups : Int)))).1
      remaining :=
        (pySliceTo (sortByMtime files) (-(maxBackups : Int))).drop
            (cleanupDeleteLoop removeOk (pySliceTo (sortByMtime files) (-(maxBackups : Int)))).1.length ++
          (sortByMtime files).drop (pySliceTo (sortByMtime files) (-(maxBackups : Int))).length
      errorLogged :=
        (cleanupDeleteLoop removeOk (pySliceTo (sortByMtime files) (-(maxBackups : Int)))).2.isSome
      raised := false }
  else
    { deleted := [], remaining := sortByMtime files, errorLogged := false, raised := false }

/-- Two snapshots for one device, newest first in disk listing order. -/
def demoFiles : List SnapFile := [⟨['b'], 2⟩, ⟨['a'], 1⟩]

/-- Python `str.split()` on runs of whitespace (helper, accumulator holds
the current word reversed). -/
def splitWsAux : List Char → List Char → List (List Char)
  | [], [] => []
  | [], cur => [cur.reverse]
  | c :: rest, cur =>
    if c.isWhitespace then
      if cur = [] then splitWsAux rest []
      else cur.reverse :: splitWsAux rest []
    else splitWsAux rest (c :: cur)

/-- Python `str.split()` with no argument. -/
def splitWs (s : List Char) : List (List Char) := splitWsAux s []

/-- Lines 273-277: resolve the device hostname from the identity query
`show configuration system host-name`; an empty output falls back to the
inventory host, and a raised exception — including the `IndexError` from
`output.split()[-1]` on all-whitespace output — is swallowed by the bare
`except:`, also falling back to the host. -/
def resolveHostname (host : List Char) (q : Except PyExc (List Char)) : List Char :=
  match q with
  | Except.error _ => host
  | Except.ok out =>
    if out = [] then host
    else
      match (splitWs out).getLast? with
      | none => host
      | some w => w

/-- Error text of line 254. -/
def missingConfigMsg (host : List Char) : List Char :=
  "Missing configuration for host ".toList ++ host

/-- Error text of line 322 (`NetmikoTimeoutException` / `NetmikoAuthenticationException` arm). -/
def connectFailMsg (host : List Char) : List Char :=
  "Failed to connect to ".toList ++ host

/-- Error text of line 326 (generic `except Exception` arm). -/
def genericErrMsg (host : List Char) : List Char :=
  "An error occurred with ".toList ++ host

/-- Whether a file name matches the glob `{hostname}_*.conf` that
`cleanup_old_backups` builds at line 160. -/
def globConf (hostname fname : List Char) : Bool :=
  decide (fname.take (hostname.length + 1) = hostname ++ ['_']) &&
  decide (hostname.length + 6 ≤ fname.length) &&
  decide (fname.drop (fname.length - 5) = ".conf".toList)

/-- Outcome of the configuration file write at lines 290-291: either the
whole text is written, or the write raises after `k` characters were
flushed.  `open(filepath, "w")` creates the file at its final path before
any data is written, so a failing write still leaves a (partial) file
there. -/
inductive WriteOutcome where
  | ok
  | failsAfter (k : Nat)
  deriving DecidableEq, Repr

/-- One attempt's worth of device behaviour, abstracting the netmiko
session: the connect outcome, the hostname-query command, the
configuration-capture command, the file-write outcome, and the mtime the
new snapshot file gets. -/
structure AttemptBeh where
  connect : Except PyExc Unit
  hostnameQuery : Except PyExc (List Char)
  capture : Except PyExc (List Char)
  write : WriteOutcome
  newMtime : Nat

/-- Return value of `backup_router`: `(True, details)` or `(False, error)`.
Of the details dict only the fields the claims mention are kept. -/
inductive TaskResult where
  | success (hostname filename : List Char)
  | failure (msg : List Char)
  deriving DecidableEq, Repr

/-- File-system and critical-section effects of one `backup_router` body
run: files created as (name, content written), whether the git commit and
the retention cleanup inside `GIT_LOCK` ran, and the cleanup's trace. -/
structure TaskEffects where
  written : List (List Char × List Char)
  commitInvoked : Bool
  cleanupInvoked : Bool
  cleanupTrace : Option CleanupTrace
  deriving DecidableEq, Repr

/-- No effects yet. -/
def noEffects : TaskEffects :=
  { written := [], commitInvoked := false, cleanupInvoked := false, cleanupTrace := none }

/-- The `try` block of `backup_router` (lines 268-319).  May raise — the
first component is the raised exception or the return value — and the
second component records the effects accumulated before the raise.
`snapDir` is the backup directory's pre-existing content; the cleanup at
line 309 sees the files matching the sanitized hostname's pattern plus the
snapshot just written. -/
def backup_try (host ts : List Char) (cap : Nat) (removeOk : SnapFile → Bool)
    (snapDir : List SnapFile) (beh : AttemptBeh) : Except PyExc TaskResult × TaskEffects :=
  match beh.connect with
  | Except.error e => (Except.error e, noEffects)
  | Except.ok _ =>
    let hn := sanitize_hostname (resolveHostname host beh.hostnameQuery)
    match beh.capture with
    | Except.error e => (Except.error e, noEffects)
    | Except.ok cfg =>
      let filename := hn ++ '_' :: ts ++ ".conf".toList
      match beh.write with
      | WriteOutcome.failsAfter k =>
        (Except.error PyExc.otherError,
         { written := [(filename, cfg.take k)], commitInvoked := false,
           cleanupInvoked := false, cleanupTrace := none })
      | WriteOutcome.ok =>
        let ct := cleanup_old_backups cap removeOk
          ((snapDir.filter fun f => globConf hn f.name) ++ [{ name := filename, mtime := beh.newMtime }])
        (Except.ok (TaskResult.success hn filename),
         { written := [(filename, cfg)], commitInvoked := true,
           cleanupInvoked := true, cleanupTrace := some ct })

/-- The whole of `backup_router`'s body (lines 238-328): credential
validation (lines 253-256, returning before any session is opened), then
the `try` block, whose exceptions are all caught — `NetmikoTimeoutException`
and `NetmikoAuthenticationException` by the arm at line 321, every other
`Exception` by the arm at line 325 — and turned into `(False, error)`
return values.  Consequently the body returns normally on every path. -/
def backup_router_body (host username password ts : List Char) (cap : Nat)
    (removeOk : SnapFile → Bool) (snapDir : List SnapFile) (beh : AttemptBeh) :
    TaskResult × TaskEffects :=
  if host = [] ∨ username = [] ∨ password = [] then
    (TaskResult.failure (missingConfigMsg host), noEffects)
  else
    match backup_try host ts cap removeOk snapDir beh with
    | (Except.ok r, eff) => (r, eff)
    | (Except.error e, eff) =>
      if e = PyExc.netmikoTimeout ∨ e = PyExc.netmikoAuth then
        (TaskResult.failure (connectFailMsg host), eff)
      else
        (TaskResult.failure (genericErrMsg host), eff)

/-- The decorated `backup_router`: the tenacity wrapper of lines 228-237
around the body, `stop_after_attempt(3)` giving one initial call plus two
potential retries.  The body never raises (see `backup_router_body`), which
is why the wrapper always receives `Except.ok`; the per-attempt device
behaviour `beh` is indexed by the 1-based attempt number.  Returns how many
times the body ran and the call's final outcome. -/
def backup_router (host username password ts : List Char) (cap : Nat)
    (removeOk : SnapFile → Bool) (snapDir : List SnapFile) (beh : Nat → AttemptBeh) :
    Nat × Except PyExc (TaskResult × TaskEffects) :=
  tenacityRun
    (fun n => Except.ok (backup_router_body host username password ts cap removeOk snapDir (beh n)))
    2 1

/-- A device that raises `NetmikoTimeoutException` at connect on every
attempt. -/
def timeoutBeh : AttemptBeh :=
  { connect := Except.error PyExc.netmikoTimeout
    hostnameQuery := Except.error PyExc.netmikoTimeout
    capture := Except.error PyExc.netmikoTimeout
    write := WriteOutcome.ok
    newMtime := 0 }

/-- A device whose session works but whose configuration write fails after
`k` characters. -/
def midWriteBeh (hq : Except PyExc (List Char)) (cfg : List Char) (k mt : Nat) : AttemptBeh :=
  { connect := Except.ok ()
    hostnameQuery := hq
    capture := Except.ok cfg
    write := WriteOutcome.failsAfter k
    newMtime := mt }

/-- Three snapshots for one device, oldest first. -/
def demoFiles3 : List SnapFile := [⟨['a'], 1⟩, ⟨['b'], 2⟩, ⟨['c'], 3⟩]

/-- `os.remove` raises on file `a` and succeeds elsewhere. -/
def failOnA : SnapFile → Bool := fun f => decide (f.name ≠ ['a'])

/-- Externally observable job-level events, in order: the healthcheck
marker writes (`update_healthcheck_timestamp`, lines 345 and 447), the
submission of one backup task per router (line 378), and the Telegram
notification dispatch (line 444). -/
inductive JobEvent where
  | healthcheckWrite
  | taskDispatched (host : List Char)
  | notificationSent
  deriving DecidableEq, Repr

/-- How one dispatched future settles (lines 380-389): `backup_router`
returned `(True, result)`, returned `(False, error)`, or `future.result()`
re-raised an exception. -/
inductive SettledResult (α : Type) where
  | retOk (res : α)
  | retFail (err : List Char)
  | raised (exc : List Char)

/-- Whether a settled result is the `(True, result)` case. -/
def isRetOk {α : Type} : SettledResult α → Bool
  | SettledResult.retOk _ => true
  | _ => false

/-- Whether an event is a task dispatch. -/
def isDispatchEvent : JobEvent → Bool
  | JobEvent.taskDispatched _ => true
  | _ => false

/-- Observable outcome of one `run_backup_job` call: its ordered event list
and the two outcome lists it accumulates. -/
structure JobTrace (α : Type) where
  events : List JobEvent
  success_details : List α
  failed_hosts : List (List Char × List Char)

/-- The result-collection loop body (lines 380-389): a returned success
goes to `success_details`, a returned failure or a raised exception goes to
`failed_hosts` with the router's host. -/
def settleStep {α : Type} (routers : List (List Char)) (settle : Nat → SettledResult α)
    (acc : List α × List (List Char × List Char)) (i : Nat) :
    List α × List (List Char × List Char) :=
  match settle i with
  | SettledResult.retOk r => (acc.1 ++ [r], acc.2)
  | SettledResult.retFail e => (acc.1, acc.2 ++ [(routers.getD i [], e)])
  | SettledResult.raised e =>
      (acc.1, acc.2 ++ [(routers.getD i [], "Thread exception: ".toList ++ e)])

/-- `run_backup_job` (lines 339-451) over the loaded inventory `routers`
(the list of `host` fields) and a settlement oracle `settle` giving the
outcome of the task dispatched for the i-th router.  The healthcheck marker
is written at line 345; when the inventory is empty the function returns at
line 365, before dispatching anything, notifying anyone, or writing the
end-of-job marker; otherwise every router gets one task, the results are
folded into the two outcome lists, the Telegram notification is sent iff at
least one of the lists is non-empty (line 395), and the marker is written
again at line 447. -/
def run_backup_job {α : Type} (routers : List (List Char))
    (settle : Nat → SettledResult α) : JobTrace α :=
  if routers.isEmpty then
    { events := [JobEvent.healthcheckWrite], success_details := [], failed_hosts := [] }
  else
    { events := JobEvent.healthcheckWrite ::
        (routers.map JobEvent.taskDispatched ++
          ((if ((List.range routers.length).foldl (settleStep routers settle) ([], [])).2.isEmpty &&
               ((List.range routers.length).foldl (settleStep routers settle) ([], [])).1.isEmpty
            then [] else [JobEvent.notificationSent]) ++
            [JobEvent.healthcheckWrite]))
      success_details := ((List.range routers.length).foldl (settleStep routers settle) ([], [])).1
      failed_hosts := ((List.range routers.length).foldl (settleStep routers settle) ([], [])).2 }

/-! ## Theorems -/

theorem stepChain_eq (c : Char) :
    step '|' '_' (step '>' '_' (step '<' '_' (step '\"' '_' (step '?' '_'
      (step '*' '_' (step ':' '_' (step '\\' '_' (step '/' '_' c)))))))) = underscoreBad c := by
  by_cases h1 : c = '/'
  · subst h1; decide
  by_cases h2 : c = '\\'
  · subst h2; decide
  by_cases h3 : c = ':'
  · subst h3; decide
  by_cases h4 : c = '*'
  · subst h4; decide
  by_cases h5 : c = '?'
  · subst h5; decide
  by_cases h6 : c = '\"'
  · subst h6; decide
  by_cases h7 : c = '<'
  · subst h7; decide
  by_cases h8 : c = '>'
  · subst h8; decide
  by_cases h9 : c = '|'
  · subst h9; decide
  simp [step, underscoreBad, badChar, h1, h2, h3, h4, h5, h6, h7, h8, h9]

/-- The sequential replace chain of line 280 equals: drop every `;`, then
map the nine listed characters to `_`. -/
theorem sanitize_hostname_eq (s : List Char) :
    sanitize_hostname s = (s.filter fun c => c ≠ ';').map underscoreBad := by
  induction s with
  | nil => rfl
  | cons c t ih =>
    by_cases hc : c = ';'
    · subst hc
      have h1 : removeChar ';' (';' :: t) = removeChar ';' t := by
        simp [removeChar]
      simp only [sanitize_hostname] at ih ⊢
      rw [h1, ih]
      simp [List.filter_cons]
    · have h1 : removeChar ';' (c :: t) = c :: removeChar ';' t := by
        simp [removeChar, hc]
      simp only [sanitize_hostname] at ih ⊢
      rw [h1]
      simp only [replaceChar, List.map_cons]
      rw [stepChain_eq]
      simp only [replaceChar] at ih
      rw [ih]
      simp [List.filter_cons, hc]

theorem underscoreBad_idem (c : Char) : underscoreBad (underscoreBad c) = underscoreBad c := by
  by_cases h : badChar c = true
  · have hu : underscoreBad c = '_' := by simp [underscoreBad, h]
    rw [hu]
    decide
  · simp [underscoreBad, h]

theorem underscoreBad_ne_semi (c : Char) (h : c ≠ ';') : underscoreBad c ≠ ';' := by
  by_cases hb : badChar c = true
  · have hu : underscoreBad c = '_' := by simp [underscoreBad, hb]
    rw [hu]
    decide
  · simpa [underscoreBad, hb] using h

theorem sanitize_hostname_idem_aux (s : List Char) :
    sanitize_hostname (sanitize_hostname s) = sanitize_hostname s := by
  rw [sanitize_hostname_eq, sanitize_hostname_eq]
  induction s with
  | nil => rfl
  | cons c t ih =>
    rw [List.filter_cons]
    by_cases hc : c = ';'
    · simp only [hc]
      simpa using ih
    · have hkeep : decide (c ≠ ';') = true := by simp [hc]
      rw [if_pos hkeep, List.map_cons, List.filter_cons]
      have h2 : decide (underscoreBad c ≠ ';') = true := by
        simp [underscoreBad_ne_semi c hc]
      rw [if_pos h2, List.map_cons, underscoreBad_idem, ih]

theorem cleanupDeleteLoop_fst (removeOk : SnapFile → Bool) (l : List SnapFile) :
    (cleanupDeleteLoop removeOk l).1 = l.takeWhile removeOk := by
  induction l with
  | nil => rfl
  | cons f rest ih =>
    by_cases h : removeOk f = true
    · simp [cleanupDeleteLoop, List.takeWhile_cons, h, ih]
    · simp [cleanupDeleteLoop, List.takeWhile_cons, h]

theorem cleanupDeleteLoop_snd (removeOk : SnapFile → Bool) (l : List SnapFile) :
    (cleanupDeleteLoop removeOk l).2.isSome = l.any fun f => !removeOk f := by
  induction l with
  | nil => rfl
  | cons f rest ih =>
    by_cases h : removeOk f = true
    · simp [cleanupDeleteLoop, h, ih]
    · simp [cleanupDeleteLoop, h]

theorem cleanupDeleteLoop_all_ok (l : List SnapFile) :
    cleanupDeleteLoop (fun _ => true) l = (l, none) := by
  induction l with
  | nil => rfl
  | cons f rest ih => simp [cleanupDeleteLoop, ih]

theorem pySliceTo_negNat {α : Type} (xs : List α) (k : Nat) (hk : 0 < k) :
    pySliceTo xs (-(k : Int)) = xs.take (xs.length - k) := by
  have hneg : -(k : Int) < 0 := by omega
  simp only [pySliceTo, if_pos hneg, neg_neg, Int.toNat_natCast]

theorem pySliceTo_negZero {α : Type} (xs : List α) :
    pySliceTo xs (-((0 : Nat) : Int)) = [] := by
  simp [pySliceTo]

theorem length_sortByMtime (files : List SnapFile) :
    (sortByMtime files).length = files.length :=
  (List.perm_insertionSort mtimeRel files).length_eq

theorem sorted_sortByMtime (files : List SnapFile) :
    List.Pairwise mtimeRel (sortByMtime files) :=
  List.sorted_insertionSort mtimeRel files

theorem cleanup_old_backups_pos (cap : Nat) (removeOk : SnapFile → Bool)
    (files : List SnapFile) (h : (sortByMtime files).length > cap) :
    cleanup_old_backups cap removeOk files =
      { deleted :=
          (cleanupDeleteLoop removeOk (pySliceTo (sortByMtime files) (-(cap : Int)))).1
        remaining :=
          (pySliceTo (sortByMtime files) (-(cap : Int))).drop
              (cleanupDeleteLoop removeOk (pySliceTo (sortByMtime files) (-(cap : Int)))).1.length ++
            (sortByMtime files).drop (pySliceTo (sortByMtime files) (-(cap : Int))).length
        errorLogged :=
          (cleanupDeleteLoop removeOk (pySliceTo (sortByMtime files) (-(cap : Int)))).2.isSome
        raised := false } := by
  unfold cleanup_old_backups
  rw [if_pos h]

theorem cleanup_old_backups_neg (cap : Nat) (removeOk : SnapFile → Bool)
    (files : List SnapFile) (h : ¬(sortByMtime files).length > cap) :
    cleanup_old_backups cap removeOk files =
      { deleted := [], remaining := sortByMtime files, errorLogged := false, raised := false } := by
  unfold cleanup_old_backups
  rw [if_neg h]

theorem pySliceTo_negEmpty (cap : Nat) (files : List SnapFile)
    (h : ¬(sortByMtime files).length > cap) :
    pySliceTo (sortByMtime files) (-(cap : Int)) = [] := by
  cases cap with
  | zero => exact pySliceTo_negZero _
  | succ m =>
    rw [pySliceTo_negNat _ (m + 1) (Nat.succ_pos m)]
    have hz : (sortByMtime files).length - (m + 1) = 0 := by omega
    simp [hz]

/-- C2: with a positive retention cap and deletions succeeding, after
`cleanup_old_backups` runs the matching snapshots remaining on disk number
at most the cap, the deleted files are exactly the `count - cap` oldest
(the first `count - cap` entries of the mtime-sorted glob result), and
every deleted file is at least as old as every file kept. -/
theorem C2_retention_cap (cap : Nat) (files : List SnapFile) (hcap : 0 < cap) :
    (cleanup_old_backups cap (fun _ => true) files).remaining.length ≤ cap ∧
    (cleanup_old_backups cap (fun _ => true) files).deleted =
      (sortByMtime files).take (files.length - cap) ∧
    (∀ d ∈ (cleanup_old_backups cap (fun _ => true) files).deleted,
      ∀ k ∈ (cleanup_old_backups cap (fun _ => true) files).remaining,
        d.mtime ≤ k.mtime) := by
  have hlen : (sortByMtime files).length = files.length := length_sortByMtime files
  have hsorted : List.Pairwise mtimeRel (sortByMtime files) := sorted_sortByMtime files
  by_cases h : (sortByMtime files).length > cap
  · have hslice : pySliceTo (sortByMtime files) (-(cap : Int)) =
        (sortByMtime files).take ((sortByMtime files).length - cap) :=
      pySliceTo_negNat _ cap hcap
    have htrace : cleanup_old_backups cap (fun _ => true) files =
        { deleted := (sortByMtime files).take ((sortByMtime files).length - cap)
          remaining := (sortByMtime files).drop
            ((sortByMtime files).take ((sortByMtime files).length - cap)).length
          errorLogged := false
          raised := false } := by
      rw [cleanup_old_backups_pos cap (fun _ => true) files h]
      simp only [hslice, cleanupDeleteLoop_all_ok, List.drop_length, List.nil_append,
        Option.isSome_none]
    have htak : ((sortByMtime files).take ((sortByMtime files).length - cap)).length =
        (sortByMtime files).length - cap := by
      rw [List.length_take]
      omega
    refine ⟨?_, ?_, ?_⟩
    · rw [htrace]
      simp only [List.length_drop, htak]
      omega
    · rw [htrace, hlen]
    · intro d hd k hk
      rw [htrace] at hd hk
      simp only at hd hk
      rw [htak] at hk
      have hsplit := List.take_append_drop ((sortByMtime files).length - cap)
        (sortByMtime files)
      rw [← hsplit] at hsorted
      have hcross := (List.pairwise_append.mp hsorted).2.2 d hd k hk
      exact hcross
  · have htrace : cleanup_old_backups cap (fun _ => true) files =
        { deleted := [], remaining := sortByMtime files,
          errorLogged := false, raised := false } :=
      cleanup_old_backups_neg cap (fun _ => true) files h
    refine ⟨?_, ?_, ?_⟩
    · rw [htrace]
      simp only [hlen]
      omega
    · rw [htrace]
      have hz : files.length - cap = 0 := by omega
      simp [hz]
    · intro d hd k hk
      rw [htrace] at hd
      simp at hd

theorem C2_retention_cap_witness :
    0 < 1 ∧
    ((cleanup_old_backups 1 (fun _ => true) demoFiles).remaining.length ≤ 1 ∧
    (cleanup_old_backups 1 (fun _ => true) demoFiles).deleted =
      (sortByMtime demoFiles).take (demoFiles.length - 1) ∧
    (∀ d ∈ (cleanup_old_backups 1 (fun _ => true) demoFiles).deleted,
      ∀ k ∈ (cleanup_old_backups 1 (fun _ => true) demoFiles).remaining,
        d.mtime ≤ k.mtime)) :=
  ⟨by decide, C2_retention_cap 1 demoFiles (by decide)⟩

/-- C10: a configured cap of zero deletes nothing — `files[:-0]` is the
empty slice — so an existing snapshot history is never wiped by a zero
cap. -/
theorem C10_zero_cap_deletes_nothing (removeOk : SnapFile → Bool) (files : List SnapFile) :
    (cleanup_old_backups 0 removeOk files).deleted = [] ∧
    (cleanup_old_backups 0 removeOk files).remaining.length = files.length := by
  have hlen : (sortByMtime files).length = files.length := length_sortByMtime files
  by_cases h : (sortByMtime files).length > 0
  · rw [cleanup_old_backups_pos 0 removeOk files h]
    rw [pySliceTo_negZero]
    exact ⟨rfl, by simpa using hlen⟩
  · rw [cleanup_old_backups_neg 0 removeOk files h]
    exact ⟨rfl, hlen⟩

/-- Had the transient exception escaped the body, the decorator would
behave as the spec says: three invocations, then the exception propagates. -/
theorem tenacity_transient_exhausts {α : Type} (e : PyExc) (f : Nat → Except PyExc α)
    (he : retryOnExc e = true) (hf : ∀ n, f n = Except.error e) :
    tenacityRun f 2 1 = (3, Except.error e) := by
  simp [tenacityRun, hf, he]

/-- C1: evaluation of the code at the failing input.  A device whose
connection raises `NetmikoTimeoutException` (a transient-classified error)
on every try has its backup body invoked exactly once, and the call returns
the `(False, error)` value normally instead of propagating the exception:
the `except` arm at line 321 catches the transient exception inside
`backup_router`, so the tenacity decorator never observes it and never
retries. -/
theorem C1_transient_failure_not_retried :
    backup_router "10.0.0.1".toList "u".toList "p".toList "20240101_000000".toList 10
      (fun _ => true) [] (fun _ => timeoutBeh) =
    (1, Except.ok (TaskResult.failure (connectFailMsg "10.0.0.1".toList), noEffects)) := by
  rfl

/-- C5 (amended): when the capture write fails mid-write, the task reports
failure through the generic `except Exception` arm, and neither the git
commit nor the retention cleanup runs for that attempt; but the incomplete
file was opened at its final snapshot name, so its partial content remains
on disk under the device's snapshot naming pattern. -/
theorem C5_capture_failure_amended (host username password ts : List Char) (cap : Nat)
    (removeOk : SnapFile → Bool) (snapDir : List SnapFile)
    (hq : Except PyExc (List Char)) (cfg : List Char) (k mt : Nat)
    (hhost : host ≠ []) (huser : username ≠ []) (hpass : password ≠ []) :
    (backup_router_body host username password ts cap removeOk snapDir
        (midWriteBeh hq cfg k mt)).1 = TaskResult.failure (genericErrMsg host) ∧
    (backup_router_body host username password ts cap removeOk snapDir
        (midWriteBeh hq cfg k mt)).2.commitInvoked = false ∧
    (backup_router_body host username password ts cap removeOk snapDir
        (midWriteBeh hq cfg k mt)).2.cleanupInvoked = false ∧
    (backup_router_body host username password ts cap removeOk snapDir
        (midWriteBeh hq cfg k mt)).2.written =
      [(sanitize_hostname (resolveHostname host hq) ++ '_' :: ts ++ ".conf".toList,
        cfg.take k)] := by
  have hval : ¬(host = [] ∨ username = [] ∨ password = []) := by
    simp [hhost, huser, hpass]
  simp [backup_router_body, backup_try, midWriteBeh, hval]

theorem C5_capture_failure_amended_witness :
    (backup_router_body "10.0.0.1".toList "u".toList "p".toList "20240101_000000".toList 10
        (fun _ => true) [] (midWriteBeh (Except.ok "r1".toList) "set system".toList 3 5)).1 =
      TaskResult.failure (genericErrMsg "10.0.0.1".toList) ∧
    (backup_router_body "10.0.0.1".toList "u".toList "p".toList "20240101_000000".toList 10
        (fun _ => true) [] (midWriteBeh (Except.ok "r1".toList) "set system".toList 3 5)).2.commitInvoked = false ∧
    (backup_router_body "10.0.0.1".toList "u".toList "p".toList "20240101_000000".toList 10
        (fun _ => true) [] (midWriteBeh (Except.ok "r1".toList) "set system".toList 3 5)).2.cleanupInvoked = false ∧
    (backup_router_body "10.0.0.1".toList "u".toList "p".toList "20240101_000000".toList 10
        (fun _ => true) [] (midWriteBeh (Except.ok "r1".toList) "set system".toList 3 5)).2.written =
      [(sanitize_hostname (resolveHostname "10.0.0.1".toList (Except.ok "r1".toList)) ++
          '_' :: "20240101_000000".toList ++ ".conf".toList,
        "set system".toList.take 3)] :=
  C5_capture_failure_amended "10.0.0.1".toList "u".toList "p".toList "20240101_000000".toList 10
    (fun _ => true) [] (Except.ok "r1".toList) "set system".toList 3 5
    (by decide) (by decide) (by decide)

/-- C5 (counterexample to the claim as stated): after a mid-write capture
failure, the partial file is visible at its final name, matches the
device's snapshot glob pattern, and survives a retention pass as a retained
snapshot — "no incomplete file counts toward the device's retained
snapshot set" is false. -/
theorem C5_incomplete_file_visible_counterexample :
    (backup_router_body "10.0.0.1".toList "u".toList "p".toList "20240101_000000".toList 10
        (fun _ => true) [] (midWriteBeh (Except.ok "r1".toList) "set system".toList 3 5)).2.written =
      [("r1_20240101_000000.conf".toList, "set".toList)] ∧
    globConf "r1".toList "r1_20240101_000000.conf".toList = true ∧
    (cleanup_old_backups 10 (fun _ => true)
        [{ name := "r1_20240101_000000.conf".toList, mtime := 5 }]).remaining =
      [{ name := "r1_20240101_000000.conf".toList, mtime := 5 }] := by
  refine ⟨by rfl, by rfl, by rfl⟩

/-- C6 (amended): a deletion failure inside `cleanup_old_backups` never
escapes to the caller (the outer `except` logs it), so the device backup's
outcome is unaffected — the task result is identical to the one with fully
succeeding deletions — but cleanup does NOT continue past the failure: the
files actually removed are the longest prefix of `files[:-MAX_BACKUPS]` on
which `os.remove` succeeds, and an error is logged exactly when some
deletion in that slice fails. -/
theorem C6_cleanup_error_amended (cap : Nat) (removeOk : SnapFile → Bool)
    (files : List SnapFile) :
    (cleanup_old_backups cap removeOk files).raised = false ∧
    (cleanup_old_backups cap removeOk files).deleted =
      (pySliceTo (sortByMtime files) (-(cap : Int))).takeWhile removeOk ∧
    (cleanup_old_backups cap removeOk files).errorLogged =
      ((pySliceTo (sortByMtime files) (-(cap : Int))).any fun f => !removeOk f) ∧
    (∀ host username password ts snapDir beh,
      (backup_router_body host username password ts cap removeOk snapDir beh).1 =
      (backup_router_body host username password ts cap (fun _ => true) snapDir beh).1) := by
  refine ⟨?_, ?_, ?_, ?_⟩
  · by_cases h : (sortByMtime files).length > cap
    · rw [cleanup_old_backups_pos cap removeOk files h]
    · rw [cleanup_old_backups_neg cap removeOk files h]
  · by_cases h : (sortByMtime files).length > cap
    · rw [cleanup_old_backups_pos cap removeOk files h]
      exact cleanupDeleteLoop_fst removeOk _
    · rw [cleanup_old_backups_neg cap removeOk files h, pySliceTo_negEmpty cap files h]
      rfl
  · by_cases h : (sortByMtime files).length > cap
    · rw [cleanup_old_backups_pos cap removeOk files h]
      exact cleanupDeleteLoop_snd removeOk _
    · rw [cleanup_old_backups_neg cap removeOk files h, pySliceTo_negEmpty cap files h]
      rfl
  · intro host username password ts snapDir beh
    by_cases hval : host = [] ∨ username = [] ∨ password = []
    · simp [backup_router_body, hval]
    · rcases beh with ⟨conn, hq, capt, wr, mt⟩
      cases conn with
      | error e => simp [backup_router_body, backup_try, hval]
      | ok u =>
        cases capt with
        | error e => simp [backup_router_body, backup_try, hval]
        | ok cfg =>
          cases wr with
          | failsAfter k => simp [backup_router_body, backup_try, hval]
          | ok => simp [backup_router_body, backup_try, hval]

/-- C6 (counterexample to the claim as stated): with cap 1 and three
snapshots, the delete slice is `[a, b]`; removal of `a` fails, and cleanup
does not continue with the remaining deletions — `b` is removable but
still on disk afterwards, all three files remain. -/
theorem C6_cleanup_abort_counterexample :
    (cleanup_old_backups 1 failOnA demoFiles3).errorLogged = true ∧
    (cleanup_old_backups 1 failOnA demoFiles3).deleted = [] ∧
    (cleanup_old_backups 1 failOnA demoFiles3).remaining.length = 3 ∧
    failOnA ⟨['b'], 2⟩ = true := by
  refine ⟨by rfl, by rfl, by rfl, by rfl⟩

theorem settleStep_foldl_length {α : Type} (routers : List (List Char))
    (settle : Nat → SettledResult α) (l : List Nat)
    (acc : List α × List (List Char × List Char)) :
    (l.foldl (settleStep routers settle) acc).1.length +
      (l.foldl (settleStep routers settle) acc).2.length =
    acc.1.length + acc.2.length + l.length := by
  induction l generalizing acc with
  | nil => simp
  | cons i l ih =>
    rw [List.foldl_cons, ih]
    cases h : settle i <;> simp [settleStep, h] <;> omega

theorem settleStep_foldl_succ {α : Type} (routers : List (List Char))
    (settle : Nat → SettledResult α) (l : List Nat)
    (acc : List α × List (List Char × List Char)) :
    (l.foldl (settleStep routers settle) acc).1.length =
    acc.1.length + l.countP (fun i => isRetOk (settle i)) := by
  induction l generalizing acc with
  | nil => simp
  | cons i l ih =>
    rw [List.foldl_cons, ih, List.countP_cons]
    cases h : settle i <;> simp [settleStep, h, isRetOk] <;> omega

theorem settleStep_foldl_fail {α : Type} (routers : List (List Char))
    (settle : Nat → SettledResult α) (l : List Nat)
    (acc : List α × List (List Char × List Char)) :
    (l.foldl (settleStep routers settle) acc).2.length =
    acc.2.length + l.countP (fun i => !isRetOk (settle i)) := by
  induction l generalizing acc with
  | nil => simp
  | cons i l ih =>
    rw [List.foldl_cons, ih, List.countP_cons]
    cases h : settle i <;> simp [settleStep, h, isRetOk] <;> omega

theorem count_hw_map_dispatch (routers : List (List Char)) :
    (routers.map JobEvent.taskDispatched).count JobEvent.healthcheckWrite = 0 := by
  rw [List.count_eq_zero]
  intro hmem
  rcases List.mem_map.mp hmem with ⟨x, _, hx⟩
  cases hx

theorem count_notif_map_dispatch (routers : List (List Char)) :
    (routers.map JobEvent.taskDispatched).count JobEvent.notificationSent = 0 := by
  rw [List.count_eq_zero]
  intro hmem
  rcases List.mem_map.mp hmem with ⟨x, _, hx⟩
  cases hx

/-- C3: the Job Outcome partitions the dispatched tasks — every settled
task lands in exactly one of the two lists: the success list collects
exactly the `(True, result)` settlements, the failure list exactly the
returned failures and raised exceptions, and together they hold one entry
per inventory device. -/
theorem C3_job_outcome_partition {α : Type} (routers : List (List Char))
    (settle : Nat → SettledResult α) :
    (run_backup_job routers settle).success_details.length +
      (run_backup_job routers settle).failed_hosts.length = routers.length ∧
    (run_backup_job routers settle).success_details.length =
      (List.range routers.length).countP (fun i => isRetOk (settle i)) ∧
    (run_backup_job routers settle).failed_hosts.length =
      (List.range routers.length).countP (fun i => !isRetOk (settle i)) := by
  by_cases h : routers.isEmpty
  · have hnil : routers = [] := List.isEmpty_iff.mp h
    subst hnil
    simp [run_backup_job]
  · simp only [run_backup_job, if_neg h]
    refine ⟨?_, ?_, ?_⟩
    · have hl := settleStep_foldl_length routers settle (List.range routers.length) ([], [])
      simpa [List.length_range] using hl
    · have hs := settleStep_foldl_succ routers settle (List.range routers.length) ([], [])
      simpa using hs
    · have hf := settleStep_foldl_fail routers settle (List.range routers.length) ([], [])
      simpa using hf

/-- C7 (amended): the first and the last recorded event of every job run is
a liveness-marker write, but the marker is written twice only when the
inventory is non-empty; an empty inventory returns early at line 365, so
only the start-of-job write happens. -/
theorem C7_liveness_marker_amended {α : Type} (routers : List (List Char))
    (settle : Nat → SettledResult α) :
    (run_backup_job routers settle).events.head? = some JobEvent.healthcheckWrite ∧
    (run_backup_job routers settle).events.getLast? = some JobEvent.healthcheckWrite ∧
    (run_backup_job routers settle).events.count JobEvent.healthcheckWrite =
      (if routers.isEmpty then 1 else 2) := by
  by_cases h : routers.isEmpty
  · simp [run_backup_job, h]
  · simp only [run_backup_job, if_neg h]
    refine ⟨rfl, ?_, ?_⟩
    · have hre : (JobEvent.healthcheckWrite ::
          (routers.map JobEvent.taskDispatched ++
            ((if ((List.range routers.length).foldl (settleStep routers settle) ([], [])).2.isEmpty &&
                 ((List.range routers.length).foldl (settleStep routers settle) ([], [])).1.isEmpty
              then [] else [JobEvent.notificationSent]) ++
              [JobEvent.healthcheckWrite]))) =
          ((JobEvent.healthcheckWrite :: (routers.map JobEvent.taskDispatched ++
            (if ((List.range routers.length).foldl (settleStep routers settle) ([], [])).2.isEmpty &&
                ((List.range routers.length).foldl (settleStep routers settle) ([], [])).1.isEmpty
             then [] else [JobEvent.notificationSent]))) ++
            [JobEvent.healthcheckWrite]) := by
        simp
      rw [hre, List.getLast?_concat]
    · rw [List.count_cons_self, List.count_append, List.count_append,
        count_hw_map_dispatch]
      have hnotif : (List.count JobEvent.healthcheckWrite
          (if ((List.range routers.length).foldl (settleStep routers settle) ([], [])).2.isEmpty &&
              ((List.range routers.length).foldl (settleStep routers settle) ([], [])).1.isEmpty
           then ([] : List JobEvent) else [JobEvent.notificationSent])) = 0 := by
        split
        · rfl
        · decide
      rw [hnotif]
      simp [h]

/-- C7 (counterexample to the claim as stated): an empty inventory makes
`run_backup_job` return before the end-of-job marker write, so the marker
is written once, not at both job start and job end. -/
theorem C7_empty_inventory_counterexample :
    (run_backup_job ([] : List (List Char))
        (fun _ => SettledResult.retFail ([] : List Char) : Nat → SettledResult Unit)).events.count
      JobEvent.healthcheckWrite = 1 ∧ (1 : Nat) ≠ 2 := by
  exact ⟨rfl, by decide⟩

/-- C8: a non-empty inventory dispatches one task per device and exactly
one notification — even when every device failed, since the failure list
then carries every device — while an empty inventory dispatches zero tasks
and no notification. -/
theorem C8_notification_exactly_once {α : Type} (routers : List (List Char))
    (settle : Nat → SettledResult α) :
    (run_backup_job routers settle).events.count JobEvent.notificationSent =
      (if routers.isEmpty then 0 else 1) ∧
    (run_backup_job routers settle).events.countP isDispatchEvent = routers.length := by
  by_cases h : routers.isEmpty
  · have hnil : routers = [] := List.isEmpty_iff.mp h
    subst hnil
    simp [run_backup_job, isDispatchEvent]
  · have hpos : 0 < routers.length := by
      cases routers with
      | nil => simp at h
      | cons a l => simp
    have hsum := settleStep_foldl_length routers settle (List.range routers.length) ([], [])
    simp only [List.length_range, List.length_nil] at hsum
    have hcond : (((List.range routers.length).foldl (settleStep routers settle) ([], [])).2.isEmpty &&
        ((List.range routers.length).foldl (settleStep routers settle) ([], [])).1.isEmpty) = false := by
      by_contra hc
      have hboth := Bool.and_eq_true _ _ |>.mp (Bool.of_not_eq_false hc)
      have h1 := List.isEmpty_iff.mp hboth.1
      have h2 := List.isEmpty_iff.mp hboth.2
      rw [h1, h2] at hsum
      simp at hsum
      omega
    simp only [run_backup_job, if_neg h, hcond]
    constructor
    · simp [List.count_cons, List.count_append, count_notif_map_dispatch]
    · simp [List.countP_cons, List.countP_append, List.countP_map, isDispatchEvent]

/-- C4 (amended): before the resolved identity is used as the
snapshot-filename storage key, sanitization replaces each occurrence of
`/ \ : * ? " < > |` with `_` and removes each occurrence of `;` entirely
(instead of replacing it with `_`). -/
theorem C4_sanitize_amended (s : List Char) :
    sanitize_hostname s = (s.filter fun c => c ≠ ';').map underscoreBad :=
  sanitize_hostname_eq s

/-- C4 (counterexample to the claim as stated): the code deletes the
semicolon rather than replacing it with an underscore, so on `a;b` it
produces `ab` while the spec's stated replacement produces `a_b`. -/
theorem C4_semicolon_counterexample :
    sanitize_hostname ['a', ';', 'b'] = ['a', 'b'] ∧
    sanitizeSpec ['a', ';', 'b'] = ['a', '_', 'b'] ∧
    sanitize_hostname ['a', ';', 'b'] ≠ sanitizeSpec ['a', ';', 'b'] := by
  refine ⟨by decide, by decide, by decide⟩

/-- C9: sanitization is idempotent — sanitizing an already-sanitized
identity yields the same string. -/
theorem C9_sanitize_idempotent (s : List Char) :
    sanitize_hostname (sanitize_hostname s) = sanitize_hostname s :=
  sanitize_hostname_idem_aux s
